import Mathlib

/-
  Verification development for the GL renderer of the rustation libretro
  core (src/rustation-libretro/src/renderer/GlRenderer.h).

  The repository ships only the class declaration `GlRenderer` with its
  data members and method signatures; the method bodies live outside the
  provided sources.  The data model below (vertex layouts, buffer fields,
  the `SemiTransparencyMode` enumeration, `VERTEX_BUFFER_LEN`) is embedded
  from the header; the behaviour of the methods is modelled from the
  design specification, with each such definition marked
  `Modelled from the spec:`.
-/

namespace GlRenderer

/-- From the source: `VERTEX_BUFFER_LEN = 2048`, how many vertices the
renderer buffers before forcing a draw. -/
def VERTEX_BUFFER_LEN : Nat := 2048

/-- Modelled from the spec: the header only declares
`extern unsigned int VRAM_WIDTH_PIXELS`; the spec fixes the VRAM texel
grid at 1024 texels wide. -/
def VRAM_WIDTH_PIXELS : Nat := 1024

/-- Modelled from the spec: the header only declares
`extern unsigned int VRAM_HEIGHT`; the spec fixes the VRAM texel grid at
512 texels high. -/
def VRAM_HEIGHT : Nat := 512

/-- From the source: `struct FrontendResolution { uint32_t w; uint32_t h; }`. -/
structure FrontendResolution where
  w : Nat
  h : Nat
deriving Repr, DecidableEq

/-- From the source: `struct Color { uint8_t r; uint8_t g; uint8_t b; }`. -/
structure Color where
  r : Nat
  g : Nat
  b : Nat
deriving Repr, DecidableEq

/-- Geometry type used by the renderer interface: `TopLeft{x,y}`. -/
structure TopLeft where
  x : Nat
  y : Nat
deriving Repr, DecidableEq

/-- Geometry type used by the renderer interface: `Dimensions{w,h}`. -/
structure Dimensions where
  w : Nat
  h : Nat
deriving Repr, DecidableEq

/-- From the source: `enum class SemiTransparencyMode` with the four
fixed blend equations (Average, Add, SubstractSource, AddQuarterSource);
the misspelling `SubstractSource` is the source's. -/
inductive SemiTransparencyMode where
  | Average
  | Add
  | SubstractSource
  | AddQuarterSource
deriving Repr, DecidableEq

/-- From the source: `GLenum command_draw_mode` is restricted by the
header comment to `TRIANGLES or LINES`. -/
inductive DrawMode where
  | Triangles
  | Lines
deriving Repr, DecidableEq

/-- From the source: `class CommandVertex`, the draw-command vertex
layout.  Machine integers are represented by `Int`/`Nat` fields; the
wrap-around of the 16-bit position words is made explicit where a claim
depends on it. -/
structure CommandVertex where
  /-- Position in PlayStation VRAM coordinates, `int16_t position[3]`;
  the third component carries the primitive-ordering index. -/
  position : Int × Int × Nat
  /-- RGB color, 8 bits per component. -/
  color : Color
  /-- Texture coordinates within the page, `uint16_t texture_coord[2]`. -/
  texture_coord : Nat × Nat
  /-- Texture page base offset in VRAM, `uint16_t texture_page[2]`. -/
  texture_page : Nat × Nat
  /-- Palette coordinates in VRAM, `uint16_t clut[2]`. -/
  clut : Nat × Nat
  /-- 0: no texture, 1: raw-texture, 2: texture-blended. -/
  texture_blend_mode : Nat
  /-- 0 for 16bpp textures, 1 for 8bpp, 2 for 4bpp. -/
  depth_shift : Nat
  /-- True if dithering is enabled for this primitive. -/
  dither : Bool
  /-- 0: opaque, 1: semi-transparent. -/
  semi_transparent : Bool
deriving Repr, DecidableEq

/-- From the source: `class ImageLoadVertex`, a VRAM position used for
raw pixel uploads bypassing the draw pipeline. -/
structure ImageLoadVertex where
  position : Nat × Nat
deriving Repr, DecidableEq

/-! ## Semi-transparency blending (claim C3)

The blend equations are fixed-function GPU state selected per
`SemiTransparencyMode`; the header documents them on the enumeration:
`Average = Source / 2 + destination / 2`, `Add = Source + destination`,
`SubstractSource = Destination - source`,
`AddQuarterSource = Destination + source / 4`. -/

/-- Per-channel clamp to the 8-bit range. -/
def clamp255 (n : Nat) : Nat := min n 255

/-- Modelled from the spec: the per-channel blend arithmetic of the four
semi-transparency modes (the method bodies configuring the GL blend
state are not in the provided sources).  Channels are 8-bit naturals;
results are saturated at 0 and 255 as the spec's design notes require
(`Nat` subtraction already floors at 0). -/
def blendChannel (m : SemiTransparencyMode) (src dst : Nat) : Nat :=
  match m with
  | .Average => clamp255 ((src + dst) / 2)
  | .Add => clamp255 (src + dst)
  | .SubstractSource => dst - src
  | .AddQuarterSource => clamp255 (dst + src / 4)

/-- Blending a full `Color` applies the channel arithmetic componentwise. -/
def blendColor (m : SemiTransparencyMode) (src dst : Color) : Color :=
  ⟨blendChannel m src.r dst.r, blendChannel m src.g dst.g, blendChannel m src.b dst.b⟩

/-! ## VRAM texel grid and pixel transfers (claims C4, C6)

Modelled from the spec: `upload_vram_window` / `upload_textures` write a
caller-supplied dense row-major array of 16-bit VRAM-format texels into
the 1024x512 grid at `top_left`; out-of-bounds rectangles are rejected
(the operation is dropped and the state is unchanged). -/

/-- The emulated VRAM: a total map from (x, y) coordinates to 16-bit
texel values; only coordinates inside the 1024x512 grid are meaningful. -/
def Vram : Type := Nat → Nat → Nat

/-- A pixel-transfer rectangle lies inside the 1024x512 VRAM grid. -/
def rectInBounds (tl : TopLeft) (d : Dimensions) : Prop :=
  tl.x + d.w ≤ VRAM_WIDTH_PIXELS ∧ tl.y + d.h ≤ VRAM_HEIGHT

instance (tl : TopLeft) (d : Dimensions) : Decidable (rectInBounds tl d) := by
  unfold rectInBounds; infer_instance

/-- Row-major texel fetch from the caller-supplied pixel buffer: the
texel destined for offset (i, j) inside the rectangle sits at index
`j * w + i`.  Values are reduced mod 2^16 because the transfer format is
16-bit texels. -/
def bufferTexel (buf : List Nat) (w i j : Nat) : Nat :=
  (buf.getD (j * w + i) 0) % 65536

/-- Modelled from the spec: `upload_vram_window(top_left, dimensions,
pixel_buffer)` writes the row-major buffer into the VRAM grid at
`top_left`; an out-of-bounds rectangle is rejected and VRAM is left
unchanged. -/
def upload_vram_window (v : Vram) (tl : TopLeft) (d : Dimensions)
    (buf : List Nat) : Vram :=
  if rectInBounds tl d then
    fun x y =>
      if tl.x ≤ x ∧ x < tl.x + d.w ∧ tl.y ≤ y ∧ y < tl.y + d.h then
        bufferTexel buf d.w (x - tl.x) (y - tl.y)
      else v x y
  else v

/-- Modelled from the spec: `upload_textures` transfers pixels through
the image-load path with the same rectangle semantics and the same
out-of-bounds rejection as `upload_vram_window`. -/
def upload_textures (v : Vram) (tl : TopLeft) (d : Dimensions)
    (buf : List Nat) : Vram :=
  upload_vram_window v tl d buf

/-- Reading one texel back from VRAM. -/
def readVram (v : Vram) (x y : Nat) : Nat := v x y

/-! ## Texel store pair and self-texturing synchronization (claim C2)

Modelled from the spec: `fb_out` is the render target receiving draw
commands, `fb_texture` the native-resolution texture-read source.
Whenever a draw needs to sample a VRAM region that has pending,
unflushed writes in the output target, those writes are flushed and the
modified region is copied from `fb_out` back into `fb_texture` before
the sampling draw proceeds. -/

/-- A pending (staged, unflushed) draw: the VRAM rectangle it modifies
and its effect on the render target. -/
structure PendingDraw where
  region : TopLeft × Dimensions
  effect : Vram → Vram

/-- The texel store pair: render target `fb_out`, texture-read source
`fb_texture`, and the pending unflushed draws. -/
structure StorePair where
  fb_out : Vram
  fb_texture : Vram
  pending : List PendingDraw

/-- Applying the pending draws to the render target in order. -/
def applyPending (ds : List PendingDraw) (v : Vram) : Vram :=
  ds.foldl (fun acc d => d.effect acc) v

/-- Flushing the pair: all pending writes land in `fb_out`. -/
def flushPair (s : StorePair) : StorePair :=
  { s with fb_out := applyPending s.pending s.fb_out, pending := [] }

/-- Membership of a coordinate in a VRAM rectangle. -/
def inRect (r : TopLeft × Dimensions) (x y : Nat) : Bool :=
  decide (r.1.x ≤ x ∧ x < r.1.x + r.2.w ∧ r.1.y ≤ y ∧ y < r.1.y + r.2.h)

/-- Two VRAM rectangles overlap. -/
def rectOverlaps (a b : TopLeft × Dimensions) : Bool :=
  decide (a.1.x < b.1.x + b.2.w ∧ b.1.x < a.1.x + a.2.w ∧
          a.1.y < b.1.y + b.2.h ∧ b.1.y < a.1.y + a.2.h)

/-- Resynchronization: the rectangle `r` is copied from `fb_out` back
into `fb_texture` (nearest-neighbor copy at native resolution). -/
def syncPair (r : TopLeft × Dimensions) (s : StorePair) : StorePair :=
  { s with fb_texture := fun x y =>
      if inRect r x y then s.fb_out x y else s.fb_texture x y }

/-- A forced flush followed by `fb_out`-to-`fb_texture`
resynchronization of the rectangle `r`. -/
def forceFlushSync (r : TopLeft × Dimensions) (s : StorePair) : StorePair :=
  syncPair r (flushPair s)

/-- Staging one (non-sampling) draw command. -/
def pushDraw (s : StorePair) (d : PendingDraw) : StorePair :=
  { s with pending := s.pending ++ [d] }

/-- Whether some pending draw modified a region overlapping `r`. -/
def dirtyOverlap (s : StorePair) (r : TopLeft × Dimensions) : Bool :=
  s.pending.any (fun d => rectOverlaps d.region r)

/-- Modelled from the spec: submitting a textured primitive that
samples rectangle `r`: if `r` has pending unflushed writes, flush them
and resynchronize `fb_texture` first; the primitive (built by `mk` from
the texture it samples) is then staged. -/
def pushTextured (s : StorePair) (r : TopLeft × Dimensions)
    (mk : Vram → PendingDraw) : StorePair :=
  let t := if dirtyOverlap s r then forceFlushSync r s else s
  pushDraw t (mk t.fb_texture)

/-! ## Command ingestion and batch configuration (claims C5, C9, C10)

Modelled from the spec: `push_triangle` / `push_line` classify by
`mode.semi_transparent`.  Opaque primitives append to the command batch
buffer (`command_buffer`, configured by `command_draw_mode`);
semi-transparent primitives append to the single side staging list
`semi_transparent_vertices` keyed by the single current
`semi_transparency_mode` field.  `maybe_force_draw`, invoked before any
append, flushes whichever batch would otherwise overflow or whose
configuration mismatches the incoming primitive's requirements.  Buffer
entries carry the configuration they were appended under, so that
configuration homogeneity is a statable invariant. -/

/-- A primitive submitted through `push_triangle` / `push_line`: its
vertices, required topology, and transparency configuration. -/
structure Primitive where
  vertices : List CommandVertex
  draw_mode : DrawMode
  semi_transparent : Bool
  transparency_mode : SemiTransparencyMode

/-- A GPU draw call issued by a flush: either the opaque command batch
(drawn with blending disabled) or the semi-transparent staging list,
drawn with the GPU blend function set to the recorded mode. -/
inductive FlushEvent where
  | opaqueBatch (vs : List CommandVertex)
  | semiBatch (blend : SemiTransparencyMode) (vs : List CommandVertex)
deriving DecidableEq

/-- The renderer's command-ingestion state: the fields
`command_buffer`, `command_draw_mode`, `semi_transparent_vertices` and
`semi_transparency_mode` of `GlRenderer`, plus the sequence of draw
calls issued so far.  Each buffered vertex is paired with the
configuration (topology resp. transparency mode) in effect when it was
appended. -/
structure BatchingState where
  command_buffer : List (DrawMode × CommandVertex)
  command_draw_mode : DrawMode
  semi_transparent_vertices : List (SemiTransparencyMode × CommandVertex)
  semi_transparency_mode : SemiTransparencyMode
  flushed : List FlushEvent

/-- Flushing the opaque command batch: one draw call covering its
vertices, then the fill count resets; an empty batch issues nothing. -/
def flushOpaque (s : BatchingState) : BatchingState :=
  if s.command_buffer = [] then s
  else { s with command_buffer := [],
                flushed := s.flushed
                  ++ [FlushEvent.opaqueBatch (s.command_buffer.map Prod.snd)] }

/-- Flushing the semi-transparent staging list: one draw call with the
GPU blend function set to the current `semi_transparency_mode`; an
empty list issues nothing. -/
def flushSemi (s : BatchingState) : BatchingState :=
  if s.semi_transparent_vertices = [] then s
  else { s with semi_transparent_vertices := [],
                flushed := s.flushed
                  ++ [FlushEvent.semiBatch s.semi_transparency_mode
                        (s.semi_transparent_vertices.map Prod.snd)] }

/-- The semi-transparent staging list must be flushed before `n` more
vertices of transparency mode `tmode` are appended: it would overflow
`VERTEX_BUFFER_LEN`, or the requested mode differs from the mode its
current (non-empty) contents were staged under. -/
def semiFlushNeeded (s : BatchingState) (n : Nat)
    (tmode : SemiTransparencyMode) : Prop :=
  VERTEX_BUFFER_LEN < s.semi_transparent_vertices.length + n ∨
    (tmode ≠ s.semi_transparency_mode ∧ s.semi_transparent_vertices ≠ [])

instance (s : BatchingState) (n : Nat) (tmode : SemiTransparencyMode) :
    Decidable (semiFlushNeeded s n tmode) := by
  unfold semiFlushNeeded; infer_instance

/-- The opaque command batch must be flushed before `n` more vertices
of topology `mode` are appended: it would overflow
`VERTEX_BUFFER_LEN`, or the requested topology differs from the one its
current (non-empty) contents were staged under. -/
def opaqueFlushNeeded (s : BatchingState) (n : Nat) (mode : DrawMode) : Prop :=
  VERTEX_BUFFER_LEN < s.command_buffer.length + n ∨
    (mode ≠ s.command_draw_mode ∧ s.command_buffer ≠ [])

instance (s : BatchingState) (n : Nat) (mode : DrawMode) :
    Decidable (opaqueFlushNeeded s n mode) := by
  unfold opaqueFlushNeeded; infer_instance

/-- Modelled from the spec: `maybe_force_draw(nvertices, draw_mode,
semi_transparent, semi_transparency_mode)`, the shared pre-flight check
invoked before any append — flushes whichever batch would otherwise
overflow or whose configuration mismatches the incoming primitive's
requirements. -/
def maybe_force_draw (s : BatchingState) (nvertices : Nat)
    (draw_mode : DrawMode) (semi_transparent : Bool)
    (tmode : SemiTransparencyMode) : BatchingState :=
  if semi_transparent then
    if semiFlushNeeded s nvertices tmode then flushSemi s else s
  else
    if opaqueFlushNeeded s nvertices draw_mode then flushOpaque s else s

/-- Modelled from the spec: the shared body of `push_triangle` /
`push_line` — run `maybe_force_draw`, then append the primitive's
vertices to the command batch (opaque) or to the semi-transparent
staging list (semi-transparent), updating the corresponding
configuration field. -/
def push_primitive (s : BatchingState) (p : Primitive) : BatchingState :=
  let t := maybe_force_draw s p.vertices.length p.draw_mode
    p.semi_transparent p.transparency_mode
  if p.semi_transparent then
    { t with
        semi_transparency_mode := p.transparency_mode,
        semi_transparent_vertices := t.semi_transparent_vertices
          ++ p.vertices.map (fun v => (p.transparency_mode, v)) }
  else
    { t with
        command_draw_mode := p.draw_mode,
        command_buffer := t.command_buffer
          ++ p.vertices.map (fun v => (p.draw_mode, v)) }

/-- Modelled from the spec: `finalize_frame` flushes all pending
batches in commit order — the opaque command batch first, then the
semi-transparent staging list. -/
def finalize_frame (s : BatchingState) : BatchingState :=
  flushSemi (flushOpaque s)

/-- The renderer's ingestion state at construction: both buffers empty. -/
def initState : BatchingState :=
  ⟨[], DrawMode.Triangles, [], SemiTransparencyMode.Average, []⟩

/-- Running a sequence of draw commands from the initial state. -/
def runCommands (ps : List Primitive) : BatchingState :=
  ps.foldl push_primitive initState

/-- Configuration homogeneity: every vertex in the opaque command batch
was appended under the batch's current topology, and every vertex in
the semi-transparent staging list was staged under the current
`semi_transparency_mode`. -/
def batchInvariant (s : BatchingState) : Prop :=
  (∀ e ∈ s.command_buffer, e.1 = s.command_draw_mode) ∧
  (∀ e ∈ s.semi_transparent_vertices, e.1 = s.semi_transparency_mode)

/-- A concrete command vertex used to instantiate hypotheses of the
batching theorems. -/
def sampleVertex : CommandVertex :=
  ⟨(0, 0, 0), ⟨0, 0, 0⟩, (0, 0), (0, 0), (0, 0), 0, 0, false, true⟩

/-- A concrete ingestion state holding one staged semi-transparent
vertex under mode `Add`. -/
def sampleSemiState : BatchingState :=
  ⟨[], DrawMode.Triangles, [(SemiTransparencyMode.Add, sampleVertex)],
    SemiTransparencyMode.Add, []⟩

/-- A concrete semi-transparent primitive requesting mode `Average`. -/
def samplePrim : Primitive :=
  ⟨[sampleVertex], DrawMode.Triangles, true, SemiTransparencyMode.Average⟩

/-! ## Draw offset (claim C7)

Modelled from the spec: `set_draw_offset(x, y)` updates the offset
added to all subsequent vertex positions; it does not retroactively
affect already-batched vertices, so it forces a flush of any buffer
holding vertices computed under the previous offset. -/

/-- The draw-offset-relevant renderer state: the current offset, the
vertices currently batched (positions already include the offset in
effect when they were pushed), and the vertices drawn so far. -/
structure OffsetState where
  draw_offset : Int × Int
  buffered : List CommandVertex
  flushed : List CommandVertex

/-- The draw offset is added to a vertex's x and y position at push
time; the ordering index and every other payload field is untouched. -/
def applyOffset (off : Int × Int) (v : CommandVertex) : CommandVertex :=
  { v with position :=
      (v.position.1 + off.1, v.position.2.1 + off.2, v.position.2.2) }

/-- Batching one vertex under the current draw offset. -/
def pushVertexWithOffset (s : OffsetState) (v : CommandVertex) : OffsetState :=
  { s with buffered := s.buffered ++ [applyOffset s.draw_offset v] }

/-- Modelled from the spec: `set_draw_offset(x, y)` flushes the batch
(already-batched vertices are drawn exactly as batched) and then
updates the offset. -/
def set_draw_offset (s : OffsetState) (x y : Int) : OffsetState :=
  { draw_offset := (x, y), buffered := [], flushed := s.flushed ++ s.buffered }

/-- The rasterized pixel set of an axis-aligned rectangle primitive
with top-left corner `tl` and size `d` (the shape `fill_rect`
submits): the offset shift of rasterized pixels is stated against this
rasterization. -/
def rasterRect (tl : Int × Int) (d : Dimensions) (p : Int × Int) : Prop :=
  tl.1 ≤ p.1 ∧ p.1 < tl.1 + (d.w : Int) ∧
  tl.2 ≤ p.2 ∧ p.2 < tl.2 + (d.h : Int)

/-! ## Primitive ordering counter (claim C8)

From the source: `int16_t primitive_ordering` is a counter preserving
primitive draw order in the z-buffer, since semi-transparent primitives
are drawn out of order; `CommandVertex.position` carries it in its
third component.  Modelled from the spec: the counter increments once
per submitted primitive (triangle, line or rect), wrapping on overflow
of its 16 bits, and is compared by the depth/order buffer so that
later-submitted primitives win ties. -/

/-- Counter state plus the per-primitive vertex lists emitted so far. -/
structure OrderingState where
  primitive_ordering : Nat
  log : List (List CommandVertex)

/-- Storing an ordering index as the z-component of a vertex. -/
def setOrdering (z : Nat) (v : CommandVertex) : CommandVertex :=
  { v with position := (v.position.1, v.position.2.1, z) }

/-- Modelled from the spec: submitting one primitive stores the current
counter value as the z-component of each of its vertices, then
increments the 16-bit counter, wrapping modulo 2^16. -/
def push_ordered (s : OrderingState) (vs : List CommandVertex) : OrderingState :=
  { primitive_ordering := (s.primitive_ordering + 1) % 65536,
    log := s.log ++ [vs.map (setOrdering s.primitive_ordering)] }

/-- Submitting a sequence of primitives. -/
def run_ordered : OrderingState → List (List CommandVertex) → OrderingState
  | s, [] => s
  | s, vs :: prims => run_ordered (push_ordered s vs) prims

/-- One cell of the paired depth/order buffer: the stored color and the
order index it was written with. -/
structure PixelCell where
  color : Color
  z : Nat
deriving DecidableEq

/-- Modelled from the spec: the depth/order-buffer comparison — a
fragment is written iff its order index is at least the stored one, so
of two fragments with equal index the later-drawn one wins. -/
def drawFragment (cell : PixelCell) (c : Color) (z : Nat) : PixelCell :=
  if cell.z ≤ z then ⟨c, z⟩ else cell

/-! ## Capacity-bounded batching with separate semi-transparent
staging (claim C1)

Modelled from the spec: opaque primitives accumulate in the command
batch, semi-transparent ones in the side staging list; each draw call
flushes all pending batches in commit order — the opaque batch first,
then the semi-transparent batch (spec section 4.4) — so under lazy
batching the GPU receives fragments out of submission order.  Every
primitive carries the ordering-counter value of its submission as a z
index, and each fragment passes the depth/order-buffer test (written
iff its index is at least the stored one); semi-transparent fragments
blend with the destination via `blendColor`, opaque ones overwrite it.
The counter is kept as a plain natural here: claim C1 concerns one
frame epoch, within which the 16-bit counter of claim C8 is monotone. -/

/-- A draw primitive as the rasterizer sees it: its transparency
classification and, for every pixel, whether it covers the pixel and
with which source color. -/
structure RenderPrim where
  semi_transparent : Bool
  transparency_mode : SemiTransparencyMode
  frag : Nat → Nat → Option Color

/-- One depth-tested fragment write at one pixel: no coverage leaves
the cell; a covered fragment is written iff its order index passes the
order-buffer test, blending with the destination when the primitive is
semi-transparent and overwriting when it is opaque. -/
def shadeFrag (p : RenderPrim) (z : Nat) (x y : Nat)
    (cell : PixelCell) : PixelCell :=
  match p.frag x y with
  | none => cell
  | some c =>
      if cell.z ≤ z then
        ⟨if p.semi_transparent then blendColor p.transparency_mode c cell.color
          else c, z⟩
      else cell

/-- The render target together with its paired order buffer: one
`PixelCell` per coordinate. -/
def FrameBuffer : Type := Nat → Nat → PixelCell

/-- Drawing one indexed primitive over the whole framebuffer. -/
def stepFrag (fb : FrameBuffer) (d : RenderPrim × Nat) : FrameBuffer :=
  fun x y => shadeFrag d.1 d.2 x y (fb x y)

/-- A GPU draw call over a list of staged primitives, in staged order. -/
def drawPrims (fb : FrameBuffer) (ds : List (RenderPrim × Nat)) : FrameBuffer :=
  ds.foldl stepFrag fb

/-- The renderer-side GPU state: the framebuffer with its order buffer,
the opaque command batch and the semi-transparent staging list (each
primitive paired with the ordering index of its submission), the
current transparency mode, and the ordering counter. -/
structure GpuState where
  fb : FrameBuffer
  opaque_batch : List (RenderPrim × Nat)
  semi_batch : List (RenderPrim × Nat)
  semi_mode : SemiTransparencyMode
  counter : Nat

/-- Modelled from the spec: a draw call flushes all pending batches in
commit order — opaque command batch first, then the semi-transparent
batch. -/
def gpuDraw (s : GpuState) : GpuState :=
  { s with fb := drawPrims s.fb (s.opaque_batch ++ s.semi_batch),
           opaque_batch := [], semi_batch := [] }

/-- Staging a semi-transparent primitive: append to the side staging
list with the current counter as order index, record its mode, advance
the counter. -/
def gpuStageSemi (s : GpuState) (p : RenderPrim) : GpuState :=
  { s with semi_batch := s.semi_batch ++ [(p, s.counter)],
           semi_mode := p.transparency_mode,
           counter := s.counter + 1 }

/-- Staging an opaque primitive: append to the command batch with the
current counter as order index, advance the counter. -/
def gpuStageOpaque (s : GpuState) (p : RenderPrim) : GpuState :=
  { s with opaque_batch := s.opaque_batch ++ [(p, s.counter)],
           counter := s.counter + 1 }

/-- The semi-transparent staging list must be drawn before staging `p`:
it would exceed the capacity, or the requested transparency mode
differs from the one its non-empty contents were staged under. -/
def semiNeedsDraw (cap : Nat) (s : GpuState) (p : RenderPrim) : Prop :=
  cap < s.semi_batch.length + 1 ∨
    (p.transparency_mode ≠ s.semi_mode ∧ s.semi_batch.length ≠ 0)

instance (cap : Nat) (s : GpuState) (p : RenderPrim) :
    Decidable (semiNeedsDraw cap s p) := by
  unfold semiNeedsDraw; infer_instance

/-- The opaque command batch must be drawn before staging another
opaque primitive: it would exceed the capacity. -/
def opaqueNeedsDraw (cap : Nat) (s : GpuState) : Prop :=
  cap < s.opaque_batch.length + 1

instance (cap : Nat) (s : GpuState) : Decidable (opaqueNeedsDraw cap s) := by
  unfold opaqueNeedsDraw; infer_instance

/-- Modelled from the spec: submitting one primitive — the pre-flight
check forces a draw call (flushing both batches in commit order) when
the target batch would overflow the capacity or the transparency
configuration mismatches, then the primitive is staged in the batch
selected by its transparency classification. -/
def gpuPush (cap : Nat) (s : GpuState) (p : RenderPrim) : GpuState :=
  if p.semi_transparent then
    gpuStageSemi (if semiNeedsDraw cap s p then gpuDraw s else s) p
  else
    gpuStageOpaque (if opaqueNeedsDraw cap s then gpuDraw s else s) p

/-- Submitting a whole command sequence. -/
def gpuRun (cap : Nat) (s : GpuState) (ps : List RenderPrim) : GpuState :=
  ps.foldl (gpuPush cap) s

/-- The GPU state at the start of a frame over background `bg`. -/
def initGpu (bg : FrameBuffer) : GpuState :=
  ⟨bg, [], [], SemiTransparencyMode.Average, 0⟩

/-- The frame output of the batching renderer at batch capacity `cap`:
submit every command, then finalize the frame with a last draw call. -/
def renderWithCapacity (cap : Nat) (bg : FrameBuffer)
    (ps : List RenderPrim) : FrameBuffer :=
  (gpuDraw (gpuRun cap (initGpu bg) ps)).fb

/-- Modelled from the spec: the specification-side rendering — the
logically sequential draw semantics in which every primitive is drawn
in full, in exact submission order, with consecutive ordering indices
(no batching at all).  The refinement theorem for claim C1 compares the
batching renderer against this definition. -/
def specRender : FrameBuffer → Nat → List RenderPrim → FrameBuffer
  | fb, _, [] => fb
  | fb, z, p :: ps => specRender (drawPrims fb [(p, z)]) (z + 1) ps

end GlRenderer

namespace GlRenderer

/-! ## Theorems for claims C3, C4, C6 -/

/-- C3: For every source and destination channel value in the 8-bit
range, blending under the four semi-transparency modes produces, per
channel: Average = (src+dst)/2; Add = src+dst saturated at 255;
SubstractSource = dst-src floored at 0; AddQuarterSource = dst + src/4
saturated at 255 (the saturation keeping the result in 8-bit range). -/
theorem blendChannel_semantics (src dst : Nat)
    (hs : src ≤ 255) (hd : dst ≤ 255) :
    blendChannel .Average src dst = (src + dst) / 2 ∧
    blendChannel .Add src dst = min (src + dst) 255 ∧
    blendChannel .SubstractSource src dst = dst - src ∧
    blendChannel .AddQuarterSource src dst = min (dst + src / 4) 255 ∧
    ∀ m : SemiTransparencyMode, blendChannel m src dst ≤ 255 := by
  refine ⟨?_, rfl, rfl, rfl, ?_⟩
  · simp only [blendChannel, clamp255]
    omega
  · intro m
    cases m <;> simp only [blendChannel, clamp255] <;> omega

/-- Witness for C3 at src = 200, dst = 100. -/
theorem blendChannel_semantics_witness :
    blendChannel .Average 200 100 = 150 ∧
    blendChannel .Add 200 100 = 255 ∧
    blendChannel .SubstractSource 200 100 = 0 ∧
    blendChannel .AddQuarterSource 200 100 = 150 := by
  have h := blendChannel_semantics 200 100 (by decide) (by decide)
  exact ⟨by rw [h.1], by rw [h.2.1]; decide, by rw [h.2.2.1],
    by rw [h.2.2.2.1]; decide⟩

/-- C4: For every in-bounds rectangle and dense row-major buffer of
16-bit texels of size `d.w * d.h`, uploading via `upload_vram_window`
and reading back any texel of the same rectangle returns exactly the
original texel value; the hypotheses admit in particular a 1x1 rectangle
and the full 1024x512 grid. -/
theorem upload_vram_window_roundtrip (v : Vram) (tl : TopLeft)
    (d : Dimensions) (buf : List Nat)
    (hb : rectInBounds tl d)
    (hlen : buf.length = d.w * d.h)
    (hval : ∀ n ∈ buf, n < 65536)
    (i j : Nat) (hi : i < d.w) (hj : j < d.h) :
    readVram (upload_vram_window v tl d buf) (tl.x + i) (tl.y + j) =
      buf.getD (j * d.w + i) 0 := by
  unfold readVram upload_vram_window
  rw [if_pos hb]
  have hin : tl.x ≤ tl.x + i ∧ tl.x + i < tl.x + d.w ∧
      tl.y ≤ tl.y + j ∧ tl.y + j < tl.y + d.h := by omega
  rw [if_pos hin]
  unfold bufferTexel
  have hx : tl.x + i - tl.x = i := by omega
  have hy : tl.y + j - tl.y = j := by omega
  rw [hx, hy]
  have hidx : j * d.w + i < buf.length := by
    rw [hlen]
    calc j * d.w + i < j * d.w + d.w := by omega
    _ = (j + 1) * d.w := by ring
    _ ≤ d.h * d.w := Nat.mul_le_mul_right _ (by omega)
    _ = d.w * d.h := Nat.mul_comm _ _
  have hmem : buf.getD (j * d.w + i) 0 ∈ buf := by
    rw [List.getD_eq_getElem _ _ hidx]
    exact List.getElem_mem hidx
  exact Nat.mod_eq_of_lt (hval _ hmem)

/-- Witness for C4: a 1x1 rectangle upload at (3, 4) reads back its one
texel exactly. -/
theorem upload_vram_window_roundtrip_witness :
    readVram (upload_vram_window (fun _ _ => 0) ⟨3, 4⟩ ⟨1, 1⟩ [777]) 3 4
      = 777 := by
  have h := upload_vram_window_roundtrip (fun _ _ => 0) ⟨3, 4⟩ ⟨1, 1⟩ [777]
    (by constructor <;> decide) (by decide)
    (by intro n hn; simp at hn; omega) 0 0 (by decide) (by decide)
  simpa using h

/-- C6: Every pixel-transfer request (`upload_textures` or
`upload_vram_window`) whose rectangle does not lie inside the 1024x512
VRAM grid is rejected: the operation is dropped and VRAM is unchanged,
so subsequent commands proceed from an unmodified state. -/
theorem upload_out_of_bounds_rejected (v : Vram) (tl : TopLeft)
    (d : Dimensions) (buf : List Nat)
    (hout : ¬ rectInBounds tl d) :
    upload_vram_window v tl d buf = v ∧
    upload_textures v tl d buf = v := by
  have h : upload_vram_window v tl d buf = v := by
    unfold upload_vram_window
    rw [if_neg hout]
  exact ⟨h, h⟩

/-- Witness for C6: a rectangle crossing the right edge of VRAM
(x = 1020, w = 8) is rejected and leaves a concrete VRAM unchanged. -/
theorem upload_out_of_bounds_rejected_witness :
    upload_vram_window (fun x y => x + y) ⟨1020, 0⟩ ⟨8, 1⟩ [1, 2, 3, 4, 5, 6, 7, 8]
      = (fun x y => x + y) := by
  exact (upload_out_of_bounds_rejected (fun x y => x + y) ⟨1020, 0⟩ ⟨8, 1⟩
    [1, 2, 3, 4, 5, 6, 7, 8] (by decide)).1

/-! ## Theorems for claims C1, C2 -/

/-- Helper: a GPU draw pass distributes over list append. -/
theorem drawPrims_append (fb : FrameBuffer) (xs ys : List (RenderPrim × Nat)) :
    drawPrims fb (xs ++ ys) = drawPrims (drawPrims fb xs) ys := by
  unfold drawPrims
  rw [List.foldl_append]

/-- Helper (cell level): an opaque fragment commutes backwards past a
fragment with a strictly smaller order index.  If the opaque fragment
writes first, the order buffer rejects the smaller-index fragment
afterwards; if it writes second, it overwrites whatever the other
fragment left, ignoring the destination because it is opaque. -/
theorem shadeFrag_swap (p q : RenderPrim) (z w : Nat) (x y : Nat)
    (cell : PixelCell) (hop : p.semi_transparent = false) (hzw : w < z) :
    shadeFrag q w x y (shadeFrag p z x y cell) =
      shadeFrag p z x y (shadeFrag q w x y cell) := by
  unfold shadeFrag
  cases hp : p.frag x y with
  | none => rfl
  | some cp =>
    cases hq : q.frag x y with
    | none => rfl
    | some cq =>
      simp only [hop, Bool.false_eq_true, if_false]
      by_cases h1 : cell.z ≤ z <;> by_cases h2 : cell.z ≤ w
      · have hnzw : ¬ z ≤ w := by omega
        have hwz : w ≤ z := by omega
        simp [h1, h2, hnzw, hwz]
      · have hnzw : ¬ z ≤ w := by omega
        simp [h1, h2, hnzw]
      · exact absurd (by omega : cell.z ≤ z) h1
      · simp [h1, h2]

/-- Helper (framebuffer level): the same commutation on whole frames. -/
theorem stepFrag_swap (fb : FrameBuffer) (a b : RenderPrim × Nat)
    (hop : a.1.semi_transparent = false) (h : b.2 < a.2) :
    stepFrag (stepFrag fb a) b = stepFrag (stepFrag fb b) a := by
  funext x y
  exact shadeFrag_swap a.1 b.1 a.2 b.2 x y (fb x y) hop h

/-- Helper: an opaque fragment whose order index is larger than that of
every staged semi-transparent fragment can be deferred past all of
them: drawing it first or after the whole staging list produces the
same frame, thanks to the order buffer. -/
theorem drawPrims_opaque_defer (p : RenderPrim) (z : Nat)
    (hop : p.semi_transparent = false) :
    ∀ (ys : List (RenderPrim × Nat)) (fb : FrameBuffer),
      (∀ d ∈ ys, d.2 < z) →
      drawPrims fb ((p, z) :: ys) = drawPrims (drawPrims fb ys) [(p, z)] := by
  intro ys
  induction ys with
  | nil => intro fb _; rfl
  | cons b ys ih =>
    intro fb hy
    have hb : b.2 < z := hy b (List.mem_cons_self b ys)
    calc drawPrims fb ((p, z) :: b :: ys)
        = List.foldl stepFrag (stepFrag (stepFrag fb (p, z)) b) ys := rfl
      _ = List.foldl stepFrag (stepFrag (stepFrag fb b) (p, z)) ys := by
            rw [stepFrag_swap fb (p, z) b hop hb]
      _ = drawPrims (stepFrag fb b) ((p, z) :: ys) := rfl
      _ = drawPrims (drawPrims (stepFrag fb b) ys) [(p, z)] :=
            ih (stepFrag fb b) (fun d hd => hy d (List.mem_cons_of_mem b hd))
      _ = drawPrims (drawPrims fb (b :: ys)) [(p, z)] := rfl

/-- Helper: staging a semi-transparent primitive appends its fragment
after both batches in the flushed-view of the state. -/
theorem gpuStageSemi_abs (s : GpuState) (p : RenderPrim) :
    drawPrims (gpuStageSemi s p).fb
        ((gpuStageSemi s p).opaque_batch ++ (gpuStageSemi s p).semi_batch) =
      drawPrims (drawPrims s.fb (s.opaque_batch ++ s.semi_batch))
        [(p, s.counter)] := by
  show drawPrims s.fb
      (s.opaque_batch ++ (s.semi_batch ++ [(p, s.counter)])) = _
  rw [← List.append_assoc, drawPrims_append]

/-- Helper: staging an opaque primitive also appends its fragment after
both batches in the flushed-view, because its index exceeds that of
every staged semi-transparent fragment and so it can be deferred past
the staging list. -/
theorem gpuStageOpaque_abs (s : GpuState) (p : RenderPrim)
    (hop : p.semi_transparent = false)
    (hW : ∀ d ∈ s.semi_batch, d.2 < s.counter) :
    drawPrims (gpuStageOpaque s p).fb
        ((gpuStageOpaque s p).opaque_batch ++ (gpuStageOpaque s p).semi_batch) =
      drawPrims (drawPrims s.fb (s.opaque_batch ++ s.semi_batch))
        [(p, s.counter)] := by
  show drawPrims s.fb
      ((s.opaque_batch ++ [(p, s.counter)]) ++ s.semi_batch) = _
  conv_rhs => rw [drawPrims_append]
  rw [List.append_assoc, List.singleton_append, drawPrims_append,
    drawPrims_opaque_defer p s.counter hop s.semi_batch
      (drawPrims s.fb s.opaque_batch) hW]

/-- Helper: one submission preserves the simulation relation — the
flushed-view of the new state is the old flushed-view with the new
fragment drawn at the submission index, the counter advances by one,
and every staged semi-transparent index stays below the counter. -/
theorem gpuPush_abs (cap : Nat) (s : GpuState) (p : RenderPrim)
    (hW : ∀ d ∈ s.semi_batch, d.2 < s.counter) :
    drawPrims (gpuPush cap s p).fb
        ((gpuPush cap s p).opaque_batch ++ (gpuPush cap s p).semi_batch) =
      drawPrims (drawPrims s.fb (s.opaque_batch ++ s.semi_batch))
        [(p, s.counter)] ∧
    (gpuPush cap s p).counter = s.counter + 1 ∧
    (∀ d ∈ (gpuPush cap s p).semi_batch, d.2 < (gpuPush cap s p).counter) := by
  have hdraw_abs : drawPrims (gpuDraw s).fb
      ((gpuDraw s).opaque_batch ++ (gpuDraw s).semi_batch) =
      drawPrims s.fb (s.opaque_batch ++ s.semi_batch) := rfl
  cases hsem : p.semi_transparent
  · have h1 : gpuPush cap s p =
        gpuStageOpaque (if opaqueNeedsDraw cap s then gpuDraw s else s) p := by
      unfold gpuPush
      rw [hsem]
      simp
    rw [h1]
    by_cases hc : opaqueNeedsDraw cap s
    · rw [if_pos hc]
      refine ⟨?_, rfl, ?_⟩
      · rw [gpuStageOpaque_abs (gpuDraw s) p hsem (fun d hd => absurd hd
          (List.not_mem_nil d)), hdraw_abs]
        rfl
      · intro d hd
        exact absurd hd (List.not_mem_nil d)
    · rw [if_neg hc]
      refine ⟨gpuStageOpaque_abs s p hsem hW, rfl, ?_⟩
      intro d hd
      have hd' : d ∈ s.semi_batch := hd
      exact Nat.lt_succ_of_lt (hW d hd')
  · have h1 : gpuPush cap s p =
        gpuStageSemi (if semiNeedsDraw cap s p then gpuDraw s else s) p := by
      unfold gpuPush
      rw [hsem]
      simp
    rw [h1]
    by_cases hc : semiNeedsDraw cap s p
    · rw [if_pos hc]
      refine ⟨?_, rfl, ?_⟩
      · rw [gpuStageSemi_abs (gpuDraw s) p, hdraw_abs]
        rfl
      · intro d hd
        have hd' : d ∈ ([] : List (RenderPrim × Nat)) ++ [(p, s.counter)] := hd
        rcases List.mem_singleton.mp (by simpa using hd') with rfl
        exact Nat.lt_succ_self _
    · rw [if_neg hc]
      refine ⟨gpuStageSemi_abs s p, rfl, ?_⟩
      intro d hd
      have hd' : d ∈ s.semi_batch ++ [(p, s.counter)] := hd
      rcases List.mem_append.mp hd' with h | h
      · exact Nat.lt_succ_of_lt (hW d h)
      · rcases List.mem_singleton.mp h with rfl
        exact Nat.lt_succ_self _

/-- Helper (simulation): running any command sequence at any capacity
and finalizing yields exactly the specification-side sequential
rendering of the flushed-view of the start state. -/
theorem gpuRun_spec (cap : Nat) (ps : List RenderPrim) :
    ∀ s : GpuState, (∀ d ∈ s.semi_batch, d.2 < s.counter) →
      (gpuDraw (gpuRun cap s ps)).fb =
        specRender (drawPrims s.fb (s.opaque_batch ++ s.semi_batch))
          s.counter ps := by
  induction ps with
  | nil => intro s hW; rfl
  | cons p ps ih =>
    intro s hW
    obtain ⟨habs, hcnt, hWnew⟩ := gpuPush_abs cap s p hW
    have h2 : gpuRun cap s (p :: ps) = gpuRun cap (gpuPush cap s p) ps := rfl
    rw [h2, ih (gpuPush cap s p) hWnew, habs, hcnt]
    rfl

/-- C1: For every sequence of opaque and semi-transparent draw
commands, the final rendered frame is identical whether batches are
flushed eagerly (effective capacity 1) or lazily (capacity
`VERTEX_BUFFER_LEN` = 2048), even though the two schedules hand the
GPU different batch boundaries and the semi-transparent staging list
defers its fragments past later opaque ones; both equal the
specification-side strictly sequential rendering, so batching and
forced-flush decisions are observably transparent to the output
pixels. -/
theorem batching_transparent (bg : FrameBuffer) (ps : List RenderPrim) :
    renderWithCapacity 1 bg ps = renderWithCapacity VERTEX_BUFFER_LEN bg ps ∧
    renderWithCapacity VERTEX_BUFFER_LEN bg ps = specRender bg 0 ps := by
  have h0 : ∀ d ∈ (initGpu bg).semi_batch, d.2 < (initGpu bg).counter :=
    fun d hd => absurd hd (List.not_mem_nil d)
  unfold renderWithCapacity
  rw [gpuRun_spec 1 ps (initGpu bg) h0,
    gpuRun_spec VERTEX_BUFFER_LEN ps (initGpu bg) h0]
  exact ⟨rfl, rfl⟩

/-- C2: For every still-unflushed draw `d` and textured primitive
sampling a rectangle `r` that `d` modified, submitting the two commands
back to back yields exactly the same texel store pair (hence the same
pixels) as submitting them with a forced flush and
`fb_out`-to-`fb_texture` resynchronization in between. -/
theorem self_texturing_flush_equiv (s : StorePair) (d : PendingDraw)
    (r : TopLeft × Dimensions) (mk : Vram → PendingDraw)
    (hclean : s.pending = [])
    (hover : rectOverlaps d.region r = true) :
    flushPair (pushTextured (pushDraw s d) r mk) =
      flushPair (pushTextured (forceFlushSync r (pushDraw s d)) r mk) := by
  have h1 : dirtyOverlap (pushDraw s d) r = true := by
    simp [dirtyOverlap, pushDraw, hclean, hover]
  have h2 : dirtyOverlap (forceFlushSync r (pushDraw s d)) r = false := by
    simp [dirtyOverlap, forceFlushSync, syncPair, flushPair]
  unfold pushTextured
  rw [h1, h2]
  simp

/-- Witness for C2: a concrete rectangle fill followed by a textured
primitive sampling the overlapping rectangle, with and without the
explicit forced flush. -/
theorem self_texturing_flush_equiv_witness :
    flushPair (pushTextured
        (pushDraw ⟨fun _ _ => 0, fun _ _ => 0, []⟩
          ⟨(⟨0, 0⟩, ⟨2, 2⟩), fun _ => fun _ _ => 5⟩)
        (⟨1, 1⟩, ⟨2, 2⟩)
        (fun tex => ⟨(⟨4, 4⟩, ⟨1, 1⟩), fun v x y =>
          if x = 4 ∧ y = 4 then tex 1 1 else v x y⟩)) =
      flushPair (pushTextured
        (forceFlushSync (⟨1, 1⟩, ⟨2, 2⟩)
          (pushDraw ⟨fun _ _ => 0, fun _ _ => 0, []⟩
            ⟨(⟨0, 0⟩, ⟨2, 2⟩), fun _ => fun _ _ => 5⟩))
        (⟨1, 1⟩, ⟨2, 2⟩)
        (fun tex => ⟨(⟨4, 4⟩, ⟨1, 1⟩), fun v x y =>
          if x = 4 ∧ y = 4 then tex 1 1 else v x y⟩)) := by
  exact self_texturing_flush_equiv _ _ _ _ rfl (by decide)

/-! ## Theorems for claims C5, C9, C10 -/

/-- Helper: flushing the opaque batch leaves the semi-transparent
staging list and its mode untouched. -/
theorem flushOpaque_semi_fields (s : BatchingState) :
    (flushOpaque s).semi_transparent_vertices = s.semi_transparent_vertices ∧
    (flushOpaque s).semi_transparency_mode = s.semi_transparency_mode := by
  unfold flushOpaque
  split <;> exact ⟨rfl, rfl⟩

/-- Helper: flushing the semi-transparent list leaves the opaque batch
and its topology untouched. -/
theorem flushSemi_opaque_fields (s : BatchingState) :
    (flushSemi s).command_buffer = s.command_buffer ∧
    (flushSemi s).command_draw_mode = s.command_draw_mode := by
  unfold flushSemi
  split <;> exact ⟨rfl, rfl⟩

/-- Helper: after `flushSemi` the staging list is empty. -/
theorem flushSemi_clears (s : BatchingState) :
    (flushSemi s).semi_transparent_vertices = [] := by
  unfold flushSemi
  split
  · assumption
  · rfl

/-- Helper: after `flushOpaque` the command batch is empty. -/
theorem flushOpaque_clears (s : BatchingState) :
    (flushOpaque s).command_buffer = [] := by
  unfold flushOpaque
  split
  · assumption
  · rfl

/-- Helper: both flushes preserve configuration homogeneity. -/
theorem batchInvariant_flush (s : BatchingState) (h : batchInvariant s) :
    batchInvariant (flushOpaque s) ∧ batchInvariant (flushSemi s) := by
  constructor
  · refine ⟨?_, ?_⟩
    · intro e he
      rw [flushOpaque_clears] at he
      cases he
    · rw [(flushOpaque_semi_fields s).2]
      intro e he
      rw [(flushOpaque_semi_fields s).1] at he
      exact h.2 e he
  · refine ⟨?_, ?_⟩
    · rw [(flushSemi_opaque_fields s).2]
      intro e he
      rw [(flushSemi_opaque_fields s).1] at he
      exact h.1 e he
    · intro e he
      rw [flushSemi_clears] at he
      cases he

/-- Helper: in the semi-transparent branch, after `maybe_force_draw`
either the staging list is empty or the incoming transparency mode
matches the list's current mode; the opaque side is untouched. -/
theorem maybe_force_draw_semi_ready (s : BatchingState) (n : Nat)
    (dm : DrawMode) (tm : SemiTransparencyMode) :
    ((maybe_force_draw s n dm true tm).semi_transparent_vertices = [] ∨
      tm = (maybe_force_draw s n dm true tm).semi_transparency_mode) ∧
    (maybe_force_draw s n dm true tm).command_buffer = s.command_buffer ∧
    (maybe_force_draw s n dm true tm).command_draw_mode = s.command_draw_mode := by
  unfold maybe_force_draw
  simp only [if_true]
  by_cases hf : semiFlushNeeded s n tm
  · rw [if_pos hf]
    exact ⟨Or.inl (flushSemi_clears s), (flushSemi_opaque_fields s).1,
      (flushSemi_opaque_fields s).2⟩
  · rw [if_neg hf]
    refine ⟨?_, rfl, rfl⟩
    unfold semiFlushNeeded at hf
    push_neg at hf
    by_cases he : s.semi_transparent_vertices = []
    · exact Or.inl he
    · exact Or.inr (by_contra fun hne => he (hf.2 hne))

/-- Helper: in the opaque branch, after `maybe_force_draw` either the
command batch is empty or the incoming topology matches its current
one; the semi-transparent side is untouched. -/
theorem maybe_force_draw_opaque_ready (s : BatchingState) (n : Nat)
    (dm : DrawMode) (tm : SemiTransparencyMode) :
    ((maybe_force_draw s n dm false tm).command_buffer = [] ∨
      dm = (maybe_force_draw s n dm false tm).command_draw_mode) ∧
    (maybe_force_draw s n dm false tm).semi_transparent_vertices =
      s.semi_transparent_vertices ∧
    (maybe_force_draw s n dm false tm).semi_transparency_mode =
      s.semi_transparency_mode := by
  unfold maybe_force_draw
  simp only [Bool.false_eq_true, if_false]
  by_cases hf : opaqueFlushNeeded s n dm
  · rw [if_pos hf]
    exact ⟨Or.inl (flushOpaque_clears s), (flushOpaque_semi_fields s).1,
      (flushOpaque_semi_fields s).2⟩
  · rw [if_neg hf]
    refine ⟨?_, rfl, rfl⟩
    unfold opaqueFlushNeeded at hf
    push_neg at hf
    by_cases he : s.command_buffer = []
    · exact Or.inl he
    · exact Or.inr (by_contra fun hne => he (hf.2 hne))

/-- Helper: `maybe_force_draw` preserves configuration homogeneity. -/
theorem batchInvariant_maybe_force_draw (s : BatchingState) (n : Nat)
    (dm : DrawMode) (b : Bool) (tm : SemiTransparencyMode)
    (h : batchInvariant s) :
    batchInvariant (maybe_force_draw s n dm b tm) := by
  unfold maybe_force_draw
  cases b
  · simp only [Bool.false_eq_true, if_false]
    split
    · exact (batchInvariant_flush s h).1
    · exact h
  · simp only [if_true]
    split
    · exact (batchInvariant_flush s h).2
    · exact h

/-- Helper: one `push_primitive` preserves configuration homogeneity. -/
theorem batchInvariant_push (s : BatchingState) (p : Primitive)
    (h : batchInvariant s) : batchInvariant (push_primitive s p) := by
  unfold push_primitive
  have hinv := batchInvariant_maybe_force_draw s p.vertices.length p.draw_mode
    p.semi_transparent p.transparency_mode h
  cases hp : p.semi_transparent
  · rw [hp] at hinv
    simp only [Bool.false_eq_true, if_false]
    obtain ⟨hready, _, _⟩ := maybe_force_draw_opaque_ready s p.vertices.length
      p.draw_mode p.transparency_mode
    refine ⟨?_, hinv.2⟩
    intro e he
    simp only [List.mem_append, List.mem_map] at he
    show e.1 = p.draw_mode
    rcases he with he | ⟨v, _, rfl⟩
    · rcases hready with hr | hr
      · rw [hr] at he
        cases he
      · rw [hr]
        exact hinv.1 e he
    · rfl
  · rw [hp] at hinv
    simp only [if_true]
    obtain ⟨hready, _, _⟩ := maybe_force_draw_semi_ready s p.vertices.length
      p.draw_mode p.transparency_mode
    refine ⟨hinv.1, ?_⟩
    intro e he
    simp only [List.mem_append, List.mem_map] at he
    show e.1 = p.transparency_mode
    rcases he with he | ⟨v, _, rfl⟩
    · rcases hready with hr | hr
      · rw [hr] at he
        cases he
      · rw [hr]
        exact hinv.2 e he
    · rfl

/-- Helper: homogeneity holds along any run from an invariant state. -/
theorem batchInvariant_runFrom (ps : List Primitive) :
    ∀ s : BatchingState, batchInvariant s →
      batchInvariant (ps.foldl push_primitive s) := by
  induction ps with
  | nil => intro s h; exact h
  | cons p ps ih => intro s h; exact ih _ (batchInvariant_push s p h)

/-- Helper: the construction state is trivially homogeneous. -/
theorem batchInvariant_init : batchInvariant initState := by
  constructor <;> intro e he <;> cases he

/-- C5: After every sequence of renderer operations, each batch
buffer's contents are homogeneous in configuration: every vertex in the
opaque command batch carries the batch's current topology and every
vertex in the semi-transparent staging list carries the current
transparency mode, because `maybe_force_draw` flushes any batch that
would overflow or whose configuration mismatches before any append. -/
theorem batches_configuration_homogeneous (ps : List Primitive) :
    batchInvariant (runCommands ps) :=
  batchInvariant_runFrom ps initState batchInvariant_init

/-- C10: After every sequence of renderer operations, all vertices held
in the single semi-transparent staging list were staged under one and
the same transparency mode — the renderer's single current
`semi_transparency_mode` field. -/
theorem semi_staging_single_mode (ps : List Primitive) :
    ∀ e ∈ (runCommands ps).semi_transparent_vertices,
      e.1 = (runCommands ps).semi_transparency_mode :=
  (batchInvariant_runFrom ps initState batchInvariant_init).2

/-- Witness for C10: after one concrete semi-transparent push the
staged entry carries the current transparency mode. -/
theorem semi_staging_single_mode_witness :
    (SemiTransparencyMode.Average, sampleVertex) ∈
      (runCommands [samplePrim]).semi_transparent_vertices ∧
    (SemiTransparencyMode.Average, sampleVertex).1 =
      (runCommands [samplePrim]).semi_transparency_mode :=
  ⟨by decide, semi_staging_single_mode [samplePrim]
    (SemiTransparencyMode.Average, sampleVertex) (by decide)⟩

/-- C9: A primitive pushed with `semi_transparent` set is appended to
the side staging list keyed by the requested transparency mode, never
to the opaque command batch; the staging list is flushed — as one draw
call carrying the blend mode its vertices were staged under — exactly
when the requested mode differs from the list's current one or the
list would exceed capacity (`semiFlushNeeded`), and at a frame
boundary (`finalize_frame`). -/
theorem semi_transparent_goes_to_staging (s : BatchingState) (p : Primitive)
    (hp : p.semi_transparent = true) :
    (push_primitive s p).command_buffer = s.command_buffer ∧
    (push_primitive s p).command_draw_mode = s.command_draw_mode ∧
    (push_primitive s p).semi_transparency_mode = p.transparency_mode ∧
    (push_primitive s p).semi_transparent_vertices =
      (if semiFlushNeeded s p.vertices.length p.transparency_mode then []
        else s.semi_transparent_vertices)
      ++ p.vertices.map (fun v => (p.transparency_mode, v)) ∧
    (push_primitive s p).flushed =
      s.flushed ++
        (if semiFlushNeeded s p.vertices.length p.transparency_mode
            ∧ s.semi_transparent_vertices ≠ [] then
          [FlushEvent.semiBatch s.semi_transparency_mode
            (s.semi_transparent_vertices.map Prod.snd)]
        else []) ∧
    (finalize_frame s).semi_transparent_vertices = [] ∧
    (s.semi_transparent_vertices ≠ [] →
      (finalize_frame s).flushed = (flushOpaque s).flushed ++
        [FlushEvent.semiBatch s.semi_transparency_mode
          (s.semi_transparent_vertices.map Prod.snd)]) := by
  unfold push_primitive maybe_force_draw
  rw [hp]
  simp only [if_true]
  by_cases hf : semiFlushNeeded s p.vertices.length p.transparency_mode
  · rw [if_pos hf, if_pos hf]
    by_cases he : s.semi_transparent_vertices = []
    · have hc : ¬ (semiFlushNeeded s p.vertices.length p.transparency_mode ∧
          s.semi_transparent_vertices ≠ []) := fun hh => hh.2 he
      rw [if_neg hc]
      unfold flushSemi
      rw [if_pos he]
      refine ⟨?_, ?_, ?_, ?_, ?_, ?_, ?_⟩
      · rfl
      · rfl
      · trivial
      · rw [he]
      · simp
      · exact flushSemi_clears (flushOpaque s)
      · intro hne; exact absurd he hne
    · have hc : semiFlushNeeded s p.vertices.length p.transparency_mode ∧
          s.semi_transparent_vertices ≠ [] := ⟨hf, he⟩
      rw [if_pos hc]
      unfold flushSemi
      rw [if_neg he]
      refine ⟨?_, ?_, ?_, ?_, ?_, ?_, ?_⟩
      · rfl
      · rfl
      · trivial
      · rfl
      · rfl
      · exact flushSemi_clears (flushOpaque s)
      · intro _
        unfold finalize_frame flushSemi
        rw [if_neg (by rw [(flushOpaque_semi_fields s).1]; exact he)]
        rw [(flushOpaque_semi_fields s).1, (flushOpaque_semi_fields s).2]
  · rw [if_neg hf, if_neg hf]
    have hc : ¬ (semiFlushNeeded s p.vertices.length p.transparency_mode ∧
        s.semi_transparent_vertices ≠ []) := fun hh => hf hh.1
    rw [if_neg hc]
    refine ⟨?_, ?_, ?_, ?_, ?_, ?_, ?_⟩
    · rfl
    · rfl
    · trivial
    · rfl
    · simp
    · exact flushSemi_clears (flushOpaque s)
    · intro hne
      unfold finalize_frame flushSemi
      rw [if_neg (by rw [(flushOpaque_semi_fields s).1]; exact hne)]
      rw [(flushOpaque_semi_fields s).1, (flushOpaque_semi_fields s).2]

/-- Witness for C9: pushing a concrete semi-transparent `Average`
primitive onto a state holding one vertex staged under `Add`. -/
theorem semi_transparent_goes_to_staging_witness :
    (push_primitive sampleSemiState samplePrim).command_buffer =
      sampleSemiState.command_buffer ∧
    (push_primitive sampleSemiState samplePrim).command_draw_mode =
      sampleSemiState.command_draw_mode ∧
    (push_primitive sampleSemiState samplePrim).semi_transparency_mode =
      samplePrim.transparency_mode ∧
    (push_primitive sampleSemiState samplePrim).semi_transparent_vertices =
      (if semiFlushNeeded sampleSemiState samplePrim.vertices.length
          samplePrim.transparency_mode then []
        else sampleSemiState.semi_transparent_vertices)
      ++ samplePrim.vertices.map (fun v => (samplePrim.transparency_mode, v)) ∧
    (push_primitive sampleSemiState samplePrim).flushed =
      sampleSemiState.flushed ++
        (if semiFlushNeeded sampleSemiState samplePrim.vertices.length
              samplePrim.transparency_mode
            ∧ sampleSemiState.semi_transparent_vertices ≠ [] then
          [FlushEvent.semiBatch sampleSemiState.semi_transparency_mode
            (sampleSemiState.semi_transparent_vertices.map Prod.snd)]
        else []) ∧
    (finalize_frame sampleSemiState).semi_transparent_vertices = [] ∧
    (sampleSemiState.semi_transparent_vertices ≠ [] →
      (finalize_frame sampleSemiState).flushed =
        (flushOpaque sampleSemiState).flushed ++
          [FlushEvent.semiBatch sampleSemiState.semi_transparency_mode
            (sampleSemiState.semi_transparent_vertices.map Prod.snd)]) :=
  semi_transparent_goes_to_staging sampleSemiState samplePrim rfl

/-! ## Theorems for claims C7, C8 -/

/-- C7: `set_draw_offset` forces a flush in which the already-batched
vertices are drawn exactly as batched (never retroactively modified);
after the call a pushed vertex is shifted by exactly (dx, dy) with
color, texturing and ordering payload unchanged, and the rasterized
pixel set of a primitive placed under the new offset is exactly the
(dx, dy)-translate of its un-offset rasterization. -/
theorem set_draw_offset_semantics (s : OffsetState) (dx dy : Int)
    (v : CommandVertex) (tl : Int × Int) (d : Dimensions) (px py : Int) :
    (set_draw_offset s dx dy).flushed = s.flushed ++ s.buffered ∧
    (set_draw_offset s dx dy).buffered = [] ∧
    (set_draw_offset s dx dy).draw_offset = (dx, dy) ∧
    (pushVertexWithOffset (set_draw_offset s dx dy) v).buffered =
      [applyOffset (dx, dy) v] ∧
    (applyOffset (dx, dy) v).position.1 = v.position.1 + dx ∧
    (applyOffset (dx, dy) v).position.2.1 = v.position.2.1 + dy ∧
    (applyOffset (dx, dy) v).position.2.2 = v.position.2.2 ∧
    (applyOffset (dx, dy) v).color = v.color ∧
    (applyOffset (dx, dy) v).texture_coord = v.texture_coord ∧
    (applyOffset (dx, dy) v).texture_page = v.texture_page ∧
    (applyOffset (dx, dy) v).clut = v.clut ∧
    (applyOffset (dx, dy) v).texture_blend_mode = v.texture_blend_mode ∧
    (rasterRect (tl.1 + dx, tl.2 + dy) d (px, py) ↔
      rasterRect tl d (px - dx, py - dy)) := by
  refine ⟨rfl, rfl, rfl, rfl, rfl, rfl, rfl, rfl, rfl, rfl, rfl, rfl, ?_⟩
  unfold rasterRect
  omega

/-- Helper: running a primitive sequence advances the 16-bit ordering
counter by the number of primitives, modulo 2^16. -/
theorem run_ordered_counter (prims : List (List CommandVertex)) :
    ∀ s : OrderingState, s.primitive_ordering < 65536 →
      (run_ordered s prims).primitive_ordering =
        (s.primitive_ordering + prims.length) % 65536 := by
  induction prims with
  | nil =>
    intro s h
    show s.primitive_ordering = _
    simp only [List.length_nil]
    omega
  | cons vs prims ih =>
    intro s h
    have hlt : (push_ordered s vs).primitive_ordering < 65536 := by
      unfold push_ordered
      exact Nat.mod_lt _ (by norm_num)
    have := ih (push_ordered s vs) hlt
    unfold run_ordered
    rw [this]
    unfold push_ordered
    simp only [List.length_cons]
    omega

/-- C8: The primitive ordering counter is a 16-bit value incremented
exactly once per submitted primitive, wrapping modulo 2^16; the counter
value current at submission is stored as the z-component of every
vertex of that primitive; and the order-buffer comparison lets the
later-drawn of two fragments with equal order index win the pixel. -/
theorem primitive_ordering_semantics (s : OrderingState)
    (vs : List CommandVertex) (prims : List (List CommandVertex))
    (hc : s.primitive_ordering < 65536)
    (cell : PixelCell) (c1 c2 : Color) (z : Nat) (hz : cell.z ≤ z) :
    (run_ordered s prims).primitive_ordering =
      (s.primitive_ordering + prims.length) % 65536 ∧
    (push_ordered s vs).primitive_ordering =
      (s.primitive_ordering + 1) % 65536 ∧
    (push_ordered s vs).log =
      s.log ++ [vs.map (setOrdering s.primitive_ordering)] ∧
    (∀ w ∈ vs.map (setOrdering s.primitive_ordering),
      w.position.2.2 = s.primitive_ordering) ∧
    drawFragment (drawFragment cell c1 z) c2 z = ⟨c2, z⟩ := by
  refine ⟨run_ordered_counter prims s hc, rfl, rfl, ?_, ?_⟩
  · intro w hw
    simp only [List.mem_map] at hw
    obtain ⟨u, _, rfl⟩ := hw
    rfl
  · unfold drawFragment
    rw [if_pos hz, if_pos (le_refl z)]

/-- Witness for C8: three primitives submitted from a counter at 65535
wrap the counter to 2; both vertices of a primitive carry the counter;
a later fragment with the same order index wins the pixel. -/
theorem primitive_ordering_semantics_witness :
    (run_ordered ⟨65535, []⟩ [[sampleVertex], [], [sampleVertex]]).primitive_ordering =
      (65535 + 3) % 65536 ∧
    (push_ordered ⟨65535, []⟩ [sampleVertex]).primitive_ordering =
      (65535 + 1) % 65536 ∧
    (push_ordered ⟨65535, []⟩ [sampleVertex]).log =
      [] ++ [[sampleVertex].map (setOrdering 65535)] ∧
    (∀ w ∈ [sampleVertex].map (setOrdering 65535),
      w.position.2.2 = 65535) ∧
    drawFragment (drawFragment ⟨⟨1, 1, 1⟩, 4⟩ ⟨2, 2, 2⟩ 7) ⟨3, 3, 3⟩ 7 =
      ⟨⟨3, 3, 3⟩, 7⟩ :=
  primitive_ordering_semantics ⟨65535, []⟩ [sampleVertex]
    [[sampleVertex], [], [sampleVertex]] (by decide)
    ⟨⟨1, 1, 1⟩, 4⟩ ⟨2, 2, 2⟩ ⟨3, 3, 3⟩ 7 (by decide)

end GlRenderer
